import Mathlib

/-!
# SRv6 SID map (`pkg/maps/srv6map/sid.go`)

A shallow embedding of the SID map of the SRv6 feature: the key and value
records, their `Equal` methods, the constructors `NewSIDKey` and
`NewSIDKeyFromSID`, the create/open path `initSIDMap`, and the three table
operations `Lookup`, `Update` and `Delete`.

Go pointers that may be nil are `Option`; a run-time panic is the `error`
side of `Except Panic`; a Go `error` result is `Option E` (`none` is `nil`).
-/

namespace Srv6map

/-! ## Bytes, addresses and the Go library pieces the source calls -/

/-- A Go `byte`. -/
abbrev Byte := Fin 256

/-- Truncating conversion `byte(n)`. -/
def byteOf (n : Nat) : Byte := ⟨n % 256, Nat.mod_lt n (by decide)⟩

/-- Run-time panics of the embedded code. -/
inductive Panic where
  | nilDereference
  deriving DecidableEq, Repr

/-- Modelled from the spec: the type `types.IPv6` of `pkg/types` is not under
src/. The spec gives the key as a fixed-width 128-bit address, that is a
16-byte array (`[16]byte`). -/
structure IPv6 where
  bytes : List Byte
  len : bytes.length = 16
  deriving DecidableEq

/-- The zero value of `types.IPv6`: sixteen zero bytes. -/
def IPv6.zero : IPv6 := ⟨List.replicate 16 0, by simp⟩

/-- A Go `net.IP`: a byte slice (`nil` is the empty list). -/
abbrev IP := List Byte

/-- Modelled from the spec: the method `IPv6.IP` of `pkg/types` is not under
src/. It views the 16-byte array as a `net.IP` slice holding the same bytes. -/
def IPv6.IP (v6 : IPv6) : IP := v6.bytes

/-- The Go standard library's `v4InV6Prefix`. -/
def v4InV6Prefix : List Byte := [0, 0, 0, 0, 0, 0, 0, 0, 0, 0, 0xff, 0xff]

/-- The Go standard library's `net.IP.Equal`: equal lengths compare bytewise;
a 4-byte and a 16-byte slice are equal when the 16-byte one is the
IPv4-in-IPv6 form of the other. -/
def IP.Equal (ip x : IP) : Bool :=
  if ip.length = x.length then
    decide (ip = x)
  else if ip.length = 4 ∧ x.length = 16 then
    decide (x.take 12 = v4InV6Prefix) && decide (ip = x.drop 12)
  else if ip.length = 16 ∧ x.length = 4 then
    decide (ip.take 12 = v4InV6Prefix) && decide (ip.drop 12 = x)
  else
    false

/-! ## Keys and values -/

/-- The Go type `SIDKey`. -/
structure SIDKey where
  SID : IPv6
  deriving DecidableEq

/-- The Go type `SIDValue`; `VRFID` is a `uint32`. -/
structure SIDValue where
  VRFID : Fin 4294967296
  deriving DecidableEq

/-- The method `(a *SIDKey) Equal(b *SIDKey) bool`. Reading `a.SID` or `b.SID`
through a nil pointer panics. -/
def SIDKey.Equal (a b : Option SIDKey) : Except Panic Bool :=
  if (a.isSome != b.isSome) then
    .ok false
  else
    match a, b with
    | some a, some b => .ok (IP.Equal a.SID.IP b.SID.IP)
    | _, _ => .error .nilDereference

/-- The method `(a *SIDValue) Equal(b *SIDValue) bool`. -/
def SIDValue.Equal (a b : Option SIDValue) : Except Panic Bool :=
  if (a.isSome != b.isSome) then
    .ok false
  else
    match a, b with
    | some a, some b => .ok (decide (a.VRFID = b.VRFID))
    | _, _ => .error .nilDereference

/-- The function `NewSIDKey`. -/
def NewSIDKey (sid : IPv6) : SIDKey :=
  let result : SIDKey := ⟨IPv6.zero⟩
  { result with SID := sid }

/-! ## `netip.Addr`, `copy` and `NewSIDKeyFromSID` -/

/-- The family and zone tag `z` of a Go `netip.Addr`: the zero address, an
IPv4 address, an IPv6 address without zone, or an IPv6 address with a zone. -/
inductive AddrZ where
  | z0
  | z4
  | z6noz
  | z6zone (zone : String)
  deriving DecidableEq

/-- The Go standard library's `netip.Addr`: a 128-bit value kept as two
`uint64` halves, and the tag `z`. -/
structure Addr where
  hi : Nat
  lo : Nat
  z : AddrZ
  deriving DecidableEq

/-- Big-endian bytes of a `uint32` (`byteorder.BePutUint32`). -/
def bePutUint32 (v : Nat) : List Byte :=
  [byteOf (v >>> 24), byteOf (v >>> 16), byteOf (v >>> 8), byteOf v]

/-- Big-endian bytes of a `uint64` (`byteorder.BePutUint64`). -/
def bePutUint64 (v : Nat) : List Byte :=
  [byteOf (v >>> 56), byteOf (v >>> 48), byteOf (v >>> 40), byteOf (v >>> 32),
   byteOf (v >>> 24), byteOf (v >>> 16), byteOf (v >>> 8), byteOf v]

/-- The method `netip.Addr.AsSlice`: nil for the zero address, 4 bytes for
IPv4, 16 bytes otherwise. -/
def Addr.AsSlice (ip : Addr) : List Byte :=
  match ip.z with
  | .z0 => []
  | .z4 => bePutUint32 (ip.lo % 4294967296)
  | _ => bePutUint64 ip.hi ++ bePutUint64 ip.lo

/-- The method `netip.Addr.As16`: the 16-byte form of the 128-bit value. -/
def Addr.As16 (ip : Addr) : IPv6 :=
  ⟨bePutUint64 ip.hi ++ bePutUint64 ip.lo, by simp [bePutUint64]⟩

/-- The method `netip.Addr.Is6`: neither the zero address nor IPv4. -/
def Addr.Is6 (ip : Addr) : Bool :=
  decide (ip.z ≠ .z0 ∧ ip.z ≠ .z4)

/-- Go's builtin `copy(dst, src)` on byte slices: the first
`min (len dst) (len src)` positions of `dst` take the bytes of `src`, the
rest of `dst` stays. -/
def copyBytes (dst src : List Byte) : List Byte :=
  src.take dst.length ++ dst.drop (src.take dst.length).length

/-- The statement `copy(a[:], src)` on a 16-byte array: the array keeps its
length. -/
def IPv6.copyFrom (a : IPv6) (src : List Byte) : IPv6 :=
  ⟨copyBytes a.bytes src, by
    have h := a.len
    simp only [copyBytes, List.length_append, List.length_take, List.length_drop]
    omega⟩

/-- Modelled from the spec: the type `SID` of `enterprise/pkg/srv6/types` is
not under src/. The spec gives a SID as a segment identifier address; the
only field the code reads is `Addr`, a `netip.Addr`. -/
structure SID where
  Addr : Addr
  deriving DecidableEq

/-- Go `error` values of the table layer, named as in the spec's taxonomy
(`Exists` and `Invalid` are the kernel's replies to the update modes the
source never requests). -/
inductive Error where
  | NotFound
  | CapacityExceeded
  | Exists
  | Invalid
  | Fatal
  deriving DecidableEq, Repr

/-- The function `NewSIDKeyFromSID`. Reading `sid.Addr` through a nil pointer
panics; otherwise the result is a non-nil key and a nil error. -/
def NewSIDKeyFromSID (sid : Option SID) : Except Panic (Option SIDKey × Option Error) :=
  match sid with
  | none => .error .nilDereference
  | some sid =>
    let result : SIDKey := ⟨IPv6.zero⟩
    let result : SIDKey := { result with SID := result.SID.copyFrom sid.Addr.AsSlice }
    .ok (some result, none)

/-! ## The map description -/

/-- The constant `SIDMapName`. -/
def SIDMapName : String := "cilium_srv6_sid"

/-- The constant `MaxSIDEntries`. -/
def MaxSIDEntries : Nat := 16384

/-- The map types of the eBPF library (`ebpf.MapType`), as far as named here. -/
inductive MapType where
  | UnspecifiedMap
  | Hash
  | Array
  deriving DecidableEq, Repr

/-- The pinning modes of the eBPF library (`ebpf.PinType`). -/
inductive PinType where
  | PinNone
  | PinByName
  deriving DecidableEq, Repr

/-- The flag `unix.BPF_F_NO_PREALLOC`. -/
def BPF_F_NO_PREALLOC : Nat := 1

/-- The fields of `ebpf.MapSpec` that `initSIDMap` sets (`Type_` is the field
`Type`). -/
structure MapSpec where
  Name : String
  Type_ : MapType
  KeySize : Nat
  ValueSize : Nat
  MaxEntries : Nat
  Flags : Nat
  Pinning : PinType
  deriving DecidableEq, Repr

/-- Size in bytes of `types.IPv6`, an array of 16 one-byte elements. -/
def IPv6.Sizeof : Nat := 16 * 1

/-- The value of `unsafe.Sizeof(SIDKey{})`: a struct of the single field `SID`. -/
def SIDKey.Sizeof : Nat := IPv6.Sizeof

/-- The value of `unsafe.Sizeof(SIDValue{})`: a struct of the single `uint32`
field `VRFID`. -/
def SIDValue.Sizeof : Nat := 4

/-- The conversion `uint32(n)`. -/
def uint32 (n : Nat) : Nat := n % 4294967296

/-- The `ebpf.MapSpec` literal on the create path of `initSIDMap`. -/
def sidMapSpec : MapSpec :=
  { Name := SIDMapName
    Type_ := .Hash
    KeySize := uint32 SIDKey.Sizeof
    ValueSize := uint32 SIDValue.Sizeof
    MaxEntries := uint32 MaxSIDEntries
    Flags := BPF_F_NO_PREALLOC
    Pinning := .PinByName }

/-! ## Creating and opening the map -/

/-- The type `srv6SIDMap`: a wrapper of the eBPF map handle. -/
structure srv6SIDMap (M : Type) where
  Map : M

/-- The three entry points of `pkg/ebpf` that `initSIDMap` calls, over a type
`W` of states of the world outside the package, a type `M` of map handles and
a type `E` of errors. `OpenOrCreate` is a method with a pointer receiver: it
gives back the error, the handle as the call left it, and the new world.
`LoadRegisterMap` gives back a handle or an error, and the new world. -/
structure Ebpf (W M E : Type) where
  NewMap : MapSpec → M
  OpenOrCreate : M → W → Option E × M × W
  LoadRegisterMap : String → W → Except E M × W

/-- The function `initSIDMap`, on the state made of the world `w` and the
package variable `SRv6SIDMap` (here `g`, `none` when nil). The result is the
returned error, the new world and the new value of the package variable. -/
def initSIDMap {W M E : Type} (ops : Ebpf W M E) (create : Bool) (w : W)
    (g : Option (srv6SIDMap M)) : Option E × W × Option (srv6SIDMap M) :=
  if create then
    let m := ops.NewMap sidMapSpec
    match ops.OpenOrCreate m w with
    | (some err, _, w') => (some err, w', g)
    | (none, m', w') => (none, w', some ⟨m'⟩)
  else
    match ops.LoadRegisterMap SIDMapName w with
    | (.error err, w') => (some err, w', g)
    | (.ok m, w') => (none, w', some ⟨m⟩)

/-- The function `CreateSIDMap`. -/
def CreateSIDMap {W M E : Type} (ops : Ebpf W M E) (w : W)
    (g : Option (srv6SIDMap M)) : Option E × W × Option (srv6SIDMap M) :=
  initSIDMap ops true w g

/-- The function `OpenSIDMap`. -/
def OpenSIDMap {W M E : Type} (ops : Ebpf W M E) (w : W)
    (g : Option (srv6SIDMap M)) : Option E × W × Option (srv6SIDMap M) :=
  initSIDMap ops false w g

/-! ## The table behind the handle -/

/-- The update mode `BPF_ANY`: insert or overwrite. -/
def BPF_ANY : Nat := 0

/-- The update mode `BPF_NOEXIST`: insert only. -/
def BPF_NOEXIST : Nat := 1

/-- The update mode `BPF_EXIST`: overwrite only. -/
def BPF_EXIST : Nat := 2

/-- Modelled from the spec: the type `ebpf.Map` of `pkg/ebpf` (here
`EbpfMap`) is not under src/. The spec gives the binding table as a bounded
collection of bindings `(SID, RoutingDomainID)` with hash-table semantics and
a capacity fixed at creation: here the description the table was made from,
the bindings in insertion order, and `id`, the identity of the table object. -/
structure EbpfMap where
  id : Nat
  spec : MapSpec
  entries : List (SIDKey × SIDValue)
  deriving DecidableEq

/-- The keys that have a binding. -/
def EbpfMap.keys (m : EbpfMap) : List SIDKey := m.entries.map Prod.fst

/-- The value bound to `key`, if any. -/
def EbpfMap.find (m : EbpfMap) (key : SIDKey) : Option SIDValue :=
  (m.entries.find? (fun e => decide (e.1 = key))).map Prod.snd

/-- The states of a table the spec allows: at most one binding per SID, and
no more bindings than the capacity. -/
def EbpfMap.WF (m : EbpfMap) : Prop :=
  m.keys.Nodup ∧ m.entries.length ≤ m.spec.MaxEntries

/-- Modelled from the spec: the method `Lookup` of `ebpf.Map` is not under
src/. Spec: `Lookup(sid) → domainID | NotFound`. The value is written through
the pointer `valueOut`; on a miss the pointee is left as it was. -/
def EbpfMap.Lookup (m : EbpfMap) (key : SIDKey) (valueOut : SIDValue) : Option Error × SIDValue :=
  match m.find key with
  | some v => (none, v)
  | none => (some .NotFound, valueOut)

/-- Modelled from the spec: the method `Update` of `ebpf.Map` is not under
src/. Spec: `Upsert(sid, domainID) → ok | CapacityExceeded`: inserts or
overwrites, last write wins; fails with `CapacityExceeded` only when the key
is new and the table is at capacity. That is the mode `flags = 0`, the only
one the source requests; the insert-only and overwrite-only modes are the
kernel's. -/
def EbpfMap.Update (m : EbpfMap) (key : SIDKey) (value : SIDValue) (flags : Nat) :
    Option Error × EbpfMap :=
  if flags > BPF_EXIST then
    (some .Invalid, m)
  else if key ∈ m.keys then
    if flags = BPF_NOEXIST then
      (some .Exists, m)
    else
      (none, { m with
        entries := m.entries.map (fun e => if e.1 = key then (key, value) else e) })
  else if flags = BPF_EXIST then
    (some .NotFound, m)
  else if m.entries.length ≥ m.spec.MaxEntries then
    (some .CapacityExceeded, m)
  else
    (none, { m with entries := m.entries ++ [(key, value)] })

/-- Modelled from the spec: the method `Delete` of `ebpf.Map` is not under
src/. Spec: `Delete(sid) → ok | NotFound`. -/
def EbpfMap.Delete (m : EbpfMap) (key : SIDKey) : Option Error × EbpfMap :=
  if key ∈ m.keys then
    (none, { m with entries := m.entries.filter (fun e => decide (e.1 ≠ key)) })
  else
    (some .NotFound, m)

/-- The method `srv6SIDMap.Lookup`: the error, and the value behind `val`
after the call. -/
def srv6SIDMap.Lookup (m : srv6SIDMap EbpfMap) (key : SIDKey) (val : SIDValue) :
    Option Error × SIDValue :=
  m.Map.Lookup key val

/-- The method `srv6SIDMap.Update`: the error, and the handle after the call. -/
def srv6SIDMap.Update (m : srv6SIDMap EbpfMap) (key : SIDKey) (vrfID : Fin 4294967296) :
    Option Error × srv6SIDMap EbpfMap :=
  let val : SIDValue := { VRFID := vrfID }
  let r := m.Map.Update key val 0
  (r.1, ⟨r.2⟩)

/-- The method `srv6SIDMap.Delete`: the error, and the handle after the call. -/
def srv6SIDMap.Delete (m : srv6SIDMap EbpfMap) (key : SIDKey) :
    Option Error × srv6SIDMap EbpfMap :=
  let r := m.Map.Delete key
  (r.1, ⟨r.2⟩)

/-! ## The registry of named tables -/

/-- Modelled from the spec: the handle side of `ebpf.Map` (`pkg/ebpf`) is not
under src/. The spec speaks of a handle to a kernel-resident table with
create-or-attach semantics: here the description the handle was made for and,
once the handle is opened, the identity of the table it refers to. -/
structure Handle where
  spec : MapSpec
  fd : Option Nat
  deriving DecidableEq

/-- Modelled from the spec: the kernel side that `pkg/ebpf` talks to is not
under src/. The spec has kernel-resident tables that persist across process
restarts, registered under a stable name, and an underlying resource that at
times cannot be created or attached: here the tables that exist, the
registered names with the identity of their table, and whether the resource
is unavailable. -/
structure Kernel where
  tables : List EbpfMap
  pins : List (String × Nat)
  unavailable : Bool
  deriving DecidableEq

/-- The identities of the tables that exist. -/
def Kernel.ids (k : Kernel) : List Nat := k.tables.map (fun t => t.id)

/-- An identity no existing table has. -/
def Kernel.freshID (k : Kernel) : Nat := k.ids.foldr max 0 + 1

/-- The table of identity `id`, if it exists. -/
def Kernel.table (k : Kernel) (id : Nat) : Option EbpfMap :=
  k.tables.find? (fun t => decide (t.id = id))

/-- The table registered under `name`, if any. -/
def Kernel.pinned (k : Kernel) (name : String) : Option EbpfMap :=
  match k.pins.find? (fun p => decide (p.1 = name)) with
  | some p => k.table p.2
  | none => none

/-- The table a handle refers to, if the handle is opened. -/
def Kernel.deref (k : Kernel) (m : Handle) : Option EbpfMap :=
  match m.fd with
  | some id => k.table id
  | none => none

/-- A table operation made through a handle: it acts on the table the handle
refers to, in place, so that every other handle to the table and the
registered name see its effect. -/
def Kernel.onTable (k : Kernel) (m : Handle) (op : EbpfMap → Option Error × EbpfMap) :
    Option Error × Kernel :=
  match k.deref m with
  | none => (some .Invalid, k)
  | some t =>
    let r := op t
    (r.1, { k with tables := k.tables.map (fun u => if u.id = t.id then r.2 else u) })

/-- Modelled from the spec: the function `ebpf.NewMap` of `pkg/ebpf` is not
under src/. It makes the handle for a description; the handle is not opened
yet. -/
def Kernel.NewMap (spec : MapSpec) : Handle :=
  { spec := spec, fd := none }

/-- Modelled from the spec: the method `OpenOrCreate` of `ebpf.Map` is not
under src/. Spec: the table is "created or re-attached exactly once at agent
start", "persists across process restarts", is "never destroyed by this
core", and the handle has "create-or-attach semantics"; creating "allocates a
new fixed-capacity hash table with the documented byte layout and registers
it under a well-known name"; the call "fails fatally if the underlying
resource cannot be created/attached". So, as the method's name in `sid.go`
says: with pinning by name, a table already registered under the name is
attached and left as it is; otherwise a new, empty table of the description
is allocated and (with pinning by name) registered. -/
def Kernel.OpenOrCreate (m : Handle) (k : Kernel) : Option Error × Handle × Kernel :=
  if k.unavailable then
    (some .Fatal, m, k)
  else
    let t : EbpfMap := { id := k.freshID, spec := m.spec, entries := [] }
    match m.spec.Pinning with
    | .PinByName =>
      match k.pinned m.spec.Name with
      | some old => (none, { m with fd := some old.id }, k)
      | none =>
        (none, { m with fd := some t.id },
          { k with tables := k.tables ++ [t], pins := (m.spec.Name, t.id) :: k.pins })
    | .PinNone =>
      (none, { m with fd := some t.id }, { k with tables := k.tables ++ [t] })

/-- Modelled from the spec: the function `ebpf.LoadRegisterMap` of `pkg/ebpf`
is not under src/. Spec, for `create = false`: "attaches to an already-existing
table of that name"; "fails fatally if the underlying resource cannot be
attached". -/
def Kernel.LoadRegisterMap (name : String) (k : Kernel) : Except Error Handle × Kernel :=
  if k.unavailable then
    (.error .Fatal, k)
  else
    match k.pinned name with
    | some t => (.ok { spec := t.spec, fd := some t.id }, k)
    | none => (.error .Fatal, k)

/-- The entry points of `pkg/ebpf` over the registry of named tables. -/
def Kernel.ops : Ebpf Kernel Handle Error :=
  { NewMap := Kernel.NewMap
    OpenOrCreate := Kernel.OpenOrCreate
    LoadRegisterMap := Kernel.LoadRegisterMap }

instance (m : EbpfMap) : Decidable m.WF := by
  unfold EbpfMap.WF
  exact inferInstance

/-! ## Sample keys and tables -/

/-- The key of the SID `2001:db8::i` (for `i` below `2^64`). -/
def keyOfNat (i : Nat) : SIDKey :=
  NewSIDKey (Addr.As16 { hi := 0x20010db800000000, lo := i, z := .z6noz })

/-- The domain id `i`, truncated to a `uint32`. -/
def vrfOfNat (i : Nat) : SIDValue :=
  { VRFID := ⟨i % 4294967296, Nat.mod_lt i (by decide)⟩ }

/-- A SID table with no binding. -/
def emptySIDMap : srv6SIDMap EbpfMap :=
  ⟨{ id := 1, spec := sidMapSpec, entries := [] }⟩

/-- A SID table at capacity: the 16384 bindings `2001:db8::i ↦ i` for `i`
from 0 to 16383. -/
def fullSIDMap : srv6SIDMap EbpfMap :=
  ⟨{ id := 1, spec := sidMapSpec,
     entries := (List.range 16384).map (fun i => (keyOfNat i, vrfOfNat i)) }⟩

/-- A kernel with no table. -/
def emptyKernel : Kernel :=
  { tables := [], pins := [], unavailable := false }

theorem IP_Equal_same_length (ip x : IP) (h : ip.length = x.length) :
    IP.Equal ip x = decide (ip = x) := by
  simp [IP.Equal, h]

theorem IPv6_eq_iff (a b : IPv6) : a = b ↔ a.bytes = b.bytes := by
  constructor
  · intro h; rw [h]
  · intro h
    cases a; cases b
    simp only [IPv6.mk.injEq]
    exact h

theorem SIDKey_Equal_some (a b : SIDKey) :
    SIDKey.Equal (some a) (some b) = .ok (decide (a.SID.bytes = b.SID.bytes)) := by
  have h : a.SID.bytes.length = b.SID.bytes.length := by
    rw [a.SID.len, b.SID.len]
  simp [SIDKey.Equal, IPv6.IP, IP_Equal_same_length _ _ h]

theorem SIDValue_Equal_some (a b : SIDValue) :
    SIDValue.Equal (some a) (some b) = .ok (decide (a.VRFID = b.VRFID)) := by
  simp [SIDValue.Equal]

/-- C4: for non-nil keys `Equal` returns exactly whether the 16 bytes of the
two SIDs are identical, and for non-nil values exactly whether the two
`VRFID`s are equal. -/
theorem Equal_structural :
    (∀ a b : SIDKey,
      SIDKey.Equal (some a) (some b) = .ok (decide (a.SID.bytes = b.SID.bytes))) ∧
    (∀ a b : SIDValue,
      SIDValue.Equal (some a) (some b) = .ok (decide (a.VRFID = b.VRFID))) := by
  exact ⟨SIDKey_Equal_some, SIDValue_Equal_some⟩

/-- C9: `Equal` on keys and on values returns false when exactly one side is
nil, returns a boolean when both sides are non-nil, and panics on the nil
receiver (no result, in particular not true) when both sides are nil. -/
theorem Equal_nil_handling :
    (∀ b : SIDKey, SIDKey.Equal none (some b) = .ok false ∧
      SIDKey.Equal (some b) none = .ok false) ∧
    (∀ a b : SIDKey, ∃ r : Bool, SIDKey.Equal (some a) (some b) = .ok r) ∧
    SIDKey.Equal none none = .error .nilDereference ∧
    (∀ b : SIDValue, SIDValue.Equal none (some b) = .ok false ∧
      SIDValue.Equal (some b) none = .ok false) ∧
    (∀ a b : SIDValue, ∃ r : Bool, SIDValue.Equal (some a) (some b) = .ok r) ∧
    SIDValue.Equal none none = .error .nilDereference := by
  refine ⟨fun b => ⟨rfl, rfl⟩, fun a b => ⟨_, rfl⟩, rfl, fun b => ⟨rfl, rfl⟩,
    fun a b => ⟨_, rfl⟩, rfl⟩

theorem copyBytes_eq_pad (dst src : List Byte) :
    copyBytes dst src = src.take dst.length ++ dst.drop (min dst.length src.length) := by
  simp [copyBytes, List.length_take]

theorem copyBytes_zero (src : List Byte) (h : src.length ≤ 16) :
    copyBytes (List.replicate 16 0) src = src ++ List.replicate (16 - src.length) 0 := by
  rw [copyBytes_eq_pad]
  simp only [List.length_replicate, List.drop_replicate]
  rw [List.take_of_length_le h, Nat.min_eq_right h]

theorem AsSlice_length_le (ip : Addr) : ip.AsSlice.length ≤ 16 := by
  unfold Addr.AsSlice
  split <;> simp [bePutUint32, bePutUint64]

theorem AsSlice_of_Is6 (ip : Addr) (h : ip.Is6 = true) :
    ip.AsSlice = ip.As16.bytes := by
  unfold Addr.Is6 at h
  unfold Addr.AsSlice Addr.As16
  split <;> simp_all

theorem NewSIDKeyFromSID_nil : NewSIDKeyFromSID none = .error Panic.nilDereference := rfl

/-- C10: for every (non-nil) SID, `NewSIDKeyFromSID` returns a key and a nil
error; the key holds the bytes of the address slice followed by zero bytes up
to 16; for an IPv6 address these are the 16 bytes of the address, and the key
is `Equal` to `NewSIDKey` of them; for an IPv4 address they are its 4 bytes
and 12 zero bytes; for the zero address 16 zero bytes. -/
theorem NewSIDKeyFromSID_copies (sid : SID) :
    ∃ key : SIDKey, NewSIDKeyFromSID (some sid) = .ok (some key, none) ∧
      key.SID.bytes = sid.Addr.AsSlice ++
        List.replicate (16 - sid.Addr.AsSlice.length) 0 ∧
      (sid.Addr.Is6 = true →
        key.SID.bytes = sid.Addr.AsSlice ∧ key.SID = sid.Addr.As16 ∧
        SIDKey.Equal (some key) (some (NewSIDKey sid.Addr.As16)) = .ok true) ∧
      (sid.Addr.z = .z4 →
        key.SID.bytes = bePutUint32 (sid.Addr.lo % 4294967296) ++ List.replicate 12 0) ∧
      (sid.Addr.z = .z0 → key.SID.bytes = List.replicate 16 0) := by
  have hpad : (IPv6.zero.copyFrom sid.Addr.AsSlice).bytes =
      sid.Addr.AsSlice ++ List.replicate (16 - sid.Addr.AsSlice.length) 0 :=
    copyBytes_zero _ (AsSlice_length_le _)
  refine ⟨⟨IPv6.zero.copyFrom sid.Addr.AsSlice⟩, rfl, hpad, ?_, ?_, ?_⟩
  · intro h6
    have hs := AsSlice_of_Is6 _ h6
    have hb : (IPv6.zero.copyFrom sid.Addr.AsSlice).bytes = sid.Addr.AsSlice := by
      rw [hpad, hs, sid.Addr.As16.len]; simp
    have he : IPv6.zero.copyFrom sid.Addr.AsSlice = sid.Addr.As16 :=
      (IPv6_eq_iff _ _).2 (hb.trans hs)
    refine ⟨hb, he, ?_⟩
    rw [SIDKey_Equal_some]
    simp [NewSIDKey, he]
  · intro h4
    have hs : sid.Addr.AsSlice = bePutUint32 (sid.Addr.lo % 4294967296) := by
      simp [Addr.AsSlice, h4]
    show (IPv6.zero.copyFrom sid.Addr.AsSlice).bytes = _
    rw [hpad, hs]; rfl
  · intro h0
    have hs : sid.Addr.AsSlice = [] := by simp [Addr.AsSlice, h0]
    show (IPv6.zero.copyFrom sid.Addr.AsSlice).bytes = _
    rw [hpad, hs]; rfl

/-! ## The create and open paths -/

/-- C5: the description built on the create path has key size 16, value size
4, type hash, 16384 maximum entries, the no-preallocation flag set, pinning
by name and the name "cilium_srv6_sid"; and the create path of `initSIDMap`
runs `OpenOrCreate` on the handle `NewMap` makes of exactly that description. -/
theorem sidMapSpec_layout :
    sidMapSpec.KeySize = 16 ∧ sidMapSpec.ValueSize = 4 ∧
    sidMapSpec.Type_ = MapType.Hash ∧ sidMapSpec.MaxEntries = 16384 ∧
    sidMapSpec.Flags &&& BPF_F_NO_PREALLOC = BPF_F_NO_PREALLOC ∧
    sidMapSpec.Pinning = PinType.PinByName ∧
    sidMapSpec.Name = "cilium_srv6_sid" ∧
    (∀ {W M E : Type} (ops : Ebpf W M E) (w : W) (g : Option (srv6SIDMap M)),
      initSIDMap ops true w g =
        match ops.OpenOrCreate (ops.NewMap
          { Name := "cilium_srv6_sid", Type_ := MapType.Hash, KeySize := 16,
            ValueSize := 4, MaxEntries := 16384, Flags := 1,
            Pinning := PinType.PinByName }) w with
        | (some err, _, w') => (some err, w', g)
        | (none, m', w') => (none, w', some ⟨m'⟩)) := by
  refine ⟨rfl, rfl, rfl, rfl, rfl, rfl, rfl, ?_⟩
  intro W M E ops w g
  rfl

/-- C6: `CreateSIDMap` returns exactly the error of `OpenOrCreate` (run on the
new handle for the SID map description), and `OpenSIDMap` exactly the error
of `LoadRegisterMap` for the SID map name; when that error is non-nil the
package variable `SRv6SIDMap` keeps its value, and when it is nil the
variable wraps the created, respectively attached, map. -/
theorem initSIDMap_error_propagation {W M E : Type} (ops : Ebpf W M E) (w : W)
    (g : Option (srv6SIDMap M)) :
    CreateSIDMap ops w g = initSIDMap ops true w g ∧
    OpenSIDMap ops w g = initSIDMap ops false w g ∧
    (initSIDMap ops true w g).1 = (ops.OpenOrCreate (ops.NewMap sidMapSpec) w).1 ∧
    (initSIDMap ops true w g).2.2 =
      (match (ops.OpenOrCreate (ops.NewMap sidMapSpec) w).1 with
       | some _ => g
       | none => some ⟨(ops.OpenOrCreate (ops.NewMap sidMapSpec) w).2.1⟩) ∧
    (initSIDMap ops false w g).1 =
      (match (ops.LoadRegisterMap SIDMapName w).1 with
       | .error err => some err
       | .ok _ => none) ∧
    (initSIDMap ops false w g).2.2 =
      (match (ops.LoadRegisterMap SIDMapName w).1 with
       | .error _ => g
       | .ok m => some ⟨m⟩) := by
  refine ⟨rfl, rfl, ?_, ?_, ?_, ?_⟩
  · simp only [initSIDMap, if_true]
    rcases ops.OpenOrCreate (ops.NewMap sidMapSpec) w with ⟨_ | e, m', w'⟩ <;> rfl
  · simp only [initSIDMap, if_true]
    rcases ops.OpenOrCreate (ops.NewMap sidMapSpec) w with ⟨_ | e, m', w'⟩ <;> rfl
  · simp only [initSIDMap]
    rcases ops.LoadRegisterMap SIDMapName w with ⟨_ | e, w'⟩ <;> rfl
  · simp only [initSIDMap]
    rcases ops.LoadRegisterMap SIDMapName w with ⟨_ | e, w'⟩ <;> rfl

/-- A write through the handle that `CreateSIDMap` yields reaches the
registered table: after creating on the kernel with no table and binding
`2001:db8::1 ↦ 5` through the handle, `OpenSIDMap` refers to a table in which
`Lookup(2001:db8::1)` gives 5, and so does a second `CreateSIDMap`. -/
theorem write_through_handle_is_registered :
    ∃ (h h' : Handle) (K1 K2 : Kernel),
      CreateSIDMap Kernel.ops emptyKernel none = (none, K1, some ⟨h⟩) ∧
      K1.onTable h (fun t => t.Update (keyOfNat 1) (vrfOfNat 5) 0) = (none, K2) ∧
      OpenSIDMap Kernel.ops K2 none = (none, K2, some ⟨h'⟩) ∧
      CreateSIDMap Kernel.ops K2 none = (none, K2, some ⟨h⟩) ∧
      (K2.deref h').map (fun t => t.Lookup (keyOfNat 1) { VRFID := 0 }) =
        some (none, { VRFID := 5 }) ∧
      (K2.deref h).map (fun t => t.Lookup (keyOfNat 1) { VRFID := 0 }) =
        some (none, { VRFID := 5 }) :=
  ⟨_, _, _, _, rfl, rfl, rfl, rfl, by decide, by decide⟩

/-! ## Lookup, update and delete -/

theorem find_none_iff (es : List (SIDKey × SIDValue)) (k : SIDKey) :
    (es.find? (fun e => decide (e.1 = k))).map Prod.snd = none ↔ k ∉ es.map Prod.fst := by
  induction es with
  | nil => simp
  | cons e t ih =>
    by_cases h : e.1 = k
    · simp [List.find?_cons, h]
    · have h' : ¬ k = e.1 := fun c => h c.symm
      simp only [List.find?_cons, h, decide_False, List.map_cons, List.mem_cons, h', false_or]
      exact ih

theorem find_replace_self (es : List (SIDKey × SIDValue)) (k : SIDKey) (v : SIDValue)
    (hk : k ∈ es.map Prod.fst) :
    ((es.map (fun e => if e.1 = k then (k, v) else e)).find?
      (fun e => decide (e.1 = k))).map Prod.snd = some v := by
  induction es with
  | nil => simp at hk
  | cons e t ih =>
    by_cases h : e.1 = k
    · simp [List.find?_cons, h]
    · have hk' : k ∈ t.map Prod.fst := by
        rcases List.mem_cons.1 hk with hh | hh
        · exact absurd hh.symm h
        · exact hh
      simp only [List.map_cons, h, if_false, List.find?_cons, decide_False]
      exact ih hk'

theorem keys_replace (es : List (SIDKey × SIDValue)) (k : SIDKey) (v : SIDValue) :
    (es.map (fun e => if e.1 = k then (k, v) else e)).map Prod.fst = es.map Prod.fst := by
  rw [List.map_map]
  apply List.map_congr_left
  intro e _
  by_cases h : e.1 = k <;> simp [h]

theorem find_append_new (es : List (SIDKey × SIDValue)) (k : SIDKey) (v : SIDValue)
    (hk : k ∉ es.map Prod.fst) :
    ((es ++ [(k, v)]).find? (fun e => decide (e.1 = k))).map Prod.snd = some v := by
  induction es with
  | nil => simp
  | cons e t ih =>
    have h : ¬ e.1 = k := fun c => hk (by simp [c])
    have hk' : k ∉ t.map Prod.fst := fun c => hk (by simp [c])
    simp only [List.cons_append, List.find?_cons, h, decide_False]
    exact ih hk'

theorem find_filter_self (es : List (SIDKey × SIDValue)) (k : SIDKey) :
    ((es.filter (fun e => decide (e.1 ≠ k))).find?
      (fun e => decide (e.1 = k))).map Prod.snd = none := by
  rw [find_none_iff]
  simp [List.mem_filter]

theorem find_filter_ne (es : List (SIDKey × SIDValue)) (k k' : SIDKey) (hne : k' ≠ k) :
    ((es.filter (fun e => decide (e.1 ≠ k))).find?
      (fun e => decide (e.1 = k'))).map Prod.snd =
    (es.find? (fun e => decide (e.1 = k'))).map Prod.snd := by
  induction es with
  | nil => rfl
  | cons e t ih =>
    by_cases h : e.1 = k
    · have h' : ¬ e.1 = k' := fun c => hne (c.symm.trans h)
      rw [List.filter_cons_of_neg (by simp [h]), List.find?_cons_of_neg _ (by simp [h'])]
      exact ih
    · rw [List.filter_cons_of_pos (by simp [h])]
      by_cases h' : e.1 = k'
      · rw [List.find?_cons_of_pos _ (by simp [h']), List.find?_cons_of_pos _ (by simp [h'])]
      · rw [List.find?_cons_of_neg _ (by simp [h']), List.find?_cons_of_neg _ (by simp [h'])]
        exact ih

theorem Update_any_present (t : EbpfMap) (k : SIDKey) (v : SIDValue) (hk : k ∈ t.keys) :
    t.Update k v 0 =
      (none, { t with
        entries := t.entries.map (fun e => if e.1 = k then (k, v) else e) }) := by
  simp [EbpfMap.Update, BPF_EXIST, BPF_NOEXIST, hk]

theorem Update_any_absent (t : EbpfMap) (k : SIDKey) (v : SIDValue) (hk : k ∉ t.keys) :
    t.Update k v 0 =
      if t.entries.length ≥ t.spec.MaxEntries then (some Error.CapacityExceeded, t)
      else (none, { t with entries := t.entries ++ [(k, v)] }) := by
  simp [EbpfMap.Update, BPF_EXIST, BPF_NOEXIST, hk]

theorem find_after_Update (t : EbpfMap) (k : SIDKey) (v : SIDValue)
    (h : (t.Update k v 0).1 = none) : (t.Update k v 0).2.find k = some v := by
  by_cases hk : k ∈ t.keys
  · rw [Update_any_present t k v hk]
    exact find_replace_self _ _ _ hk
  · rw [Update_any_absent t k v hk] at h ⊢
    by_cases hc : t.entries.length ≥ t.spec.MaxEntries
    · simp [hc] at h
    · simp only [hc, if_false]
      exact find_append_new _ _ _ hk

theorem mem_keys_of_find (t : EbpfMap) (k : SIDKey) (v : SIDValue) (h : t.find k = some v) :
    k ∈ t.keys := by
  by_contra hk
  have := (find_none_iff t.entries k).2 hk
  unfold EbpfMap.find at h
  rw [this] at h
  cases h

theorem Delete_present (t : EbpfMap) (k : SIDKey) (hk : k ∈ t.keys) :
    t.Delete k =
      (none, { t with entries := t.entries.filter (fun e => decide (e.1 ≠ k)) }) := by
  simp only [EbpfMap.Delete, hk, if_true]

theorem Delete_absent (t : EbpfMap) (k : SIDKey) (hk : k ∉ t.keys) :
    t.Delete k = (some Error.NotFound, t) := by
  simp only [EbpfMap.Delete, hk, if_false]

/-- C1: after `Update(k, v)` succeeds, `Lookup(k)` succeeds and writes `v`
into the value; a following `Delete(k)` succeeds, and after it `Lookup(k)`
fails with the not-found error (and leaves the value as it was). -/
theorem Update_Lookup_Delete_Lookup (m : srv6SIDMap EbpfMap) (k : SIDKey)
    (v : Fin 4294967296) (val : SIDValue) (hu : (m.Update k v).1 = none) :
    (m.Update k v).2.Lookup k val = (none, { VRFID := v }) ∧
    ((m.Update k v).2.Delete k).1 = none ∧
    ((m.Update k v).2.Delete k).2.Lookup k val = (some Error.NotFound, val) := by
  have hf : (m.Map.Update k { VRFID := v } 0).2.find k = some { VRFID := v } :=
    find_after_Update _ _ _ hu
  have hmem := mem_keys_of_find _ _ _ hf
  refine ⟨?_, ?_, ?_⟩
  · simp only [srv6SIDMap.Lookup, srv6SIDMap.Update, EbpfMap.Lookup, hf]
  · simp only [srv6SIDMap.Delete, srv6SIDMap.Update, Delete_present _ _ hmem]
  · simp only [srv6SIDMap.Delete, srv6SIDMap.Update, srv6SIDMap.Lookup,
      Delete_present _ _ hmem, EbpfMap.Lookup, EbpfMap.find, find_filter_self]

/-- C1 (witness): scenario A of the spec, on the empty table with the key
`2001:db8::1` and the domain 5. -/
theorem Update_Lookup_Delete_Lookup_witness :
    (keyOfNat 1).SID.bytes = [0x20, 0x01, 0x0d, 0xb8, 0, 0, 0, 0, 0, 0, 0, 0, 0, 0, 0, 1] ∧
    (emptySIDMap.Update (keyOfNat 1) 5).1 = none ∧
    ((emptySIDMap.Update (keyOfNat 1) 5).2.Lookup (keyOfNat 1) { VRFID := 0 } =
        (none, { VRFID := 5 }) ∧
      ((emptySIDMap.Update (keyOfNat 1) 5).2.Delete (keyOfNat 1)).1 = none ∧
      ((emptySIDMap.Update (keyOfNat 1) 5).2.Delete (keyOfNat 1)).2.Lookup (keyOfNat 1)
        { VRFID := 0 } = (some Error.NotFound, { VRFID := 0 })) :=
  ⟨by decide, by decide,
   Update_Lookup_Delete_Lookup emptySIDMap (keyOfNat 1) 5 { VRFID := 0 } (by decide)⟩

theorem find_some_of_mem_keys (t : EbpfMap) (k : SIDKey) (hk : k ∈ t.keys) :
    ∃ v, t.find k = some v := by
  cases h : t.find k with
  | some v => exact ⟨v, rfl⟩
  | none => exact absurd hk ((find_none_iff t.entries k).1 h)

/-- C2: on a table in which `k` is already bound (whatever the number of
bindings, the capacity included), `Update(k, v')` succeeds, a following
`Lookup(k)` yields `v'`, the number of bindings is unchanged, and the table
holds exactly one binding for `k`. -/
theorem Update_existing_overwrites (m : srv6SIDMap EbpfMap) (k : SIDKey)
    (v' : Fin 4294967296) (val : SIDValue) (hwf : m.Map.WF) (hk : k ∈ m.Map.keys) :
    (m.Update k v').1 = none ∧
    (m.Update k v').2.Lookup k val = (none, { VRFID := v' }) ∧
    (m.Update k v').2.Map.entries.length = m.Map.entries.length ∧
    (m.Update k v').2.Map.keys.count k = 1 ∧
    ((m.Update k v').2.Map.entries.filter (fun e => decide (e.1 = k))).length = 1 := by
  have hU := Update_any_present m.Map k { VRFID := v' } hk
  have hkeys : (m.Update k v').2.Map.keys = m.Map.keys := by
    simp only [srv6SIDMap.Update, hU, EbpfMap.keys, keys_replace]
  have hcount : (m.Update k v').2.Map.keys.count k = 1 := by
    rw [hkeys]
    exact List.count_eq_one_of_mem hwf.1 hk
  refine ⟨?_, ?_, ?_, hcount, ?_⟩
  · simp only [srv6SIDMap.Update, hU]
  · simp only [srv6SIDMap.Update, srv6SIDMap.Lookup, hU, EbpfMap.Lookup, EbpfMap.find,
      find_replace_self _ _ _ hk]
  · simp only [srv6SIDMap.Update, hU, List.length_map]
  · rw [← hcount, EbpfMap.keys, List.count, List.countP_map, List.countP_eq_length_filter]
    congr 1

theorem keyOfNat_bytes (i : Nat) :
    (keyOfNat i).SID.bytes = bePutUint64 0x20010db800000000 ++ bePutUint64 i := rfl

theorem keyOfNat_inj (i j : Nat) (hi : i < 65536) (hj : j < 65536)
    (h : keyOfNat i = keyOfNat j) : i = j := by
  have hb : (keyOfNat i).SID.bytes = (keyOfNat j).SID.bytes := by rw [h]
  rw [keyOfNat_bytes, keyOfNat_bytes] at hb
  have hb' := List.append_cancel_left hb
  simp only [bePutUint64, List.cons.injEq, byteOf, Fin.mk.injEq, and_true] at hb'
  obtain ⟨-, -, -, -, -, -, h8, h0⟩ := hb'
  rw [Nat.shiftRight_eq_div_pow] at h8
  rw [Nat.shiftRight_eq_div_pow] at h8
  omega

theorem fullSIDMap_keys :
    fullSIDMap.Map.keys = (List.range 16384).map keyOfNat := by
  simp only [fullSIDMap, EbpfMap.keys, List.map_map]
  rfl

theorem fullSIDMap_length : fullSIDMap.Map.entries.length = 16384 := by
  simp only [fullSIDMap, List.length_map, List.length_range]

theorem fullSIDMap_WF : fullSIDMap.Map.WF := by
  refine ⟨?_, ?_⟩
  · rw [fullSIDMap_keys]
    apply List.Nodup.map_on _ (List.nodup_range _)
    intro x hx y hy hxy
    have hx' := List.mem_range.1 hx
    have hy' := List.mem_range.1 hy
    exact keyOfNat_inj x y (by omega) (by omega) hxy
  · rw [fullSIDMap_length]
    decide

theorem fullSIDMap_mem (i : Nat) (hi : i < 16384) : keyOfNat i ∈ fullSIDMap.Map.keys := by
  rw [fullSIDMap_keys]
  exact List.mem_map.2 ⟨i, List.mem_range.2 hi, rfl⟩

theorem fullSIDMap_not_mem (i : Nat) (hi : 16384 ≤ i) (hi' : i < 65536) :
    keyOfNat i ∉ fullSIDMap.Map.keys := by
  rw [fullSIDMap_keys]
  intro h
  obtain ⟨j, hj, hji⟩ := List.mem_map.1 h
  have hj' := List.mem_range.1 hj
  have := keyOfNat_inj j i (by omega) hi' hji
  omega

/-- C2 (witness): overwriting the binding of `2001:db8::7` with the domain 9
in the table that holds 16384 bindings. -/
theorem Update_existing_overwrites_witness :
    (fullSIDMap.Map.WF ∧ keyOfNat 7 ∈ fullSIDMap.Map.keys ∧
      fullSIDMap.Map.entries.length = 16384) ∧
    ((fullSIDMap.Update (keyOfNat 7) 9).1 = none ∧
      (fullSIDMap.Update (keyOfNat 7) 9).2.Lookup (keyOfNat 7) { VRFID := 0 } =
        (none, { VRFID := 9 }) ∧
      (fullSIDMap.Update (keyOfNat 7) 9).2.Map.entries.length =
        fullSIDMap.Map.entries.length ∧
      (fullSIDMap.Update (keyOfNat 7) 9).2.Map.keys.count (keyOfNat 7) = 1 ∧
      ((fullSIDMap.Update (keyOfNat 7) 9).2.Map.entries.filter
        (fun e => decide (e.1 = keyOfNat 7))).length = 1) :=
  ⟨⟨fullSIDMap_WF, fullSIDMap_mem 7 (by decide), fullSIDMap_length⟩,
   Update_existing_overwrites fullSIDMap (keyOfNat 7) 9 { VRFID := 0 } fullSIDMap_WF
     (fullSIDMap_mem 7 (by decide))⟩

/-- C3: on a table of capacity 16384 that holds 16384 distinct keys,
`Update(k, v)` for a key `k` not among them fails with the capacity-exceeded
error and leaves the table as it was: every prior key is still found with its
previous value, and the number of bindings stays 16384. -/
theorem Update_full_new_key_rejected (m : srv6SIDMap EbpfMap) (k : SIDKey)
    (v : Fin 4294967296) (hcap : m.Map.spec.MaxEntries = MaxSIDEntries)
    (hwf : m.Map.WF) (hfull : m.Map.entries.length = 16384) (hk : k ∉ m.Map.keys) :
    (m.Update k v).1 = some Error.CapacityExceeded ∧
    (m.Update k v).2.Map = m.Map ∧
    (∀ k' ∈ m.Map.keys, ∀ val : SIDValue, ∃ v0 : SIDValue,
      m.Lookup k' val = (none, v0) ∧ (m.Update k v).2.Lookup k' val = (none, v0)) ∧
    (m.Update k v).2.Map.keys.Nodup ∧
    (m.Update k v).2.Map.entries.length ≤ 16384 := by
  have hU : m.Map.Update k { VRFID := v } 0 = (some Error.CapacityExceeded, m.Map) := by
    rw [Update_any_absent _ _ _ hk, hcap, hfull]
    rfl
  have hm : (m.Update k v).2.Map = m.Map := by
    simp only [srv6SIDMap.Update, hU]
  refine ⟨?_, hm, ?_, ?_, ?_⟩
  · simp only [srv6SIDMap.Update, hU]
  · intro k' hk' val
    obtain ⟨v0, hv0⟩ := find_some_of_mem_keys _ _ hk'
    refine ⟨v0, ?_, ?_⟩
    · simp only [srv6SIDMap.Lookup, EbpfMap.Lookup, hv0]
    · simp only [srv6SIDMap.Lookup, hm, EbpfMap.Lookup, hv0]
  · rw [hm]; exact hwf.1
  · rw [hm, hfull]

/-- C3 (witness): the key `2001:db8::4000` (the 16385th) on the table that
holds the 16384 keys `2001:db8::0` to `2001:db8::3fff`. -/
theorem Update_full_new_key_rejected_witness :
    (fullSIDMap.Map.spec.MaxEntries = MaxSIDEntries ∧ fullSIDMap.Map.WF ∧
      fullSIDMap.Map.entries.length = 16384 ∧ keyOfNat 16384 ∉ fullSIDMap.Map.keys) ∧
    ((fullSIDMap.Update (keyOfNat 16384) 5).1 = some Error.CapacityExceeded ∧
      (fullSIDMap.Update (keyOfNat 16384) 5).2.Map = fullSIDMap.Map ∧
      (∀ k' ∈ fullSIDMap.Map.keys, ∀ val : SIDValue, ∃ v0 : SIDValue,
        fullSIDMap.Lookup k' val = (none, v0) ∧
        (fullSIDMap.Update (keyOfNat 16384) 5).2.Lookup k' val = (none, v0)) ∧
      (fullSIDMap.Update (keyOfNat 16384) 5).2.Map.keys.Nodup ∧
      (fullSIDMap.Update (keyOfNat 16384) 5).2.Map.entries.length ≤ 16384) :=
  ⟨⟨rfl, fullSIDMap_WF, fullSIDMap_length, fullSIDMap_not_mem 16384 (by decide) (by decide)⟩,
   Update_full_new_key_rejected fullSIDMap (keyOfNat 16384) 5 rfl fullSIDMap_WF
     fullSIDMap_length (fullSIDMap_not_mem 16384 (by decide) (by decide))⟩

/-- C8: `Delete(k)` returns no error when `k` is bound and the not-found error
when it is not; for every other key `k'` a `Lookup(k')` gives the same result
before and after; and when `k` is not bound the table is unchanged. -/
theorem Delete_frame (m : srv6SIDMap EbpfMap) (k : SIDKey) :
    ((m.Delete k).1 = none ↔ k ∈ m.Map.keys) ∧
    ((m.Delete k).1 = some Error.NotFound ↔ k ∉ m.Map.keys) ∧
    (∀ k' : SIDKey, k' ≠ k → ∀ val : SIDValue,
      (m.Delete k).2.Lookup k' val = m.Lookup k' val) ∧
    (k ∉ m.Map.keys → (m.Delete k).2.Map = m.Map) := by
  by_cases hk : k ∈ m.Map.keys
  · have hD := Delete_present m.Map k hk
    refine ⟨?_, ?_, ?_, ?_⟩
    · simp only [srv6SIDMap.Delete, hD, hk]
    · simp [srv6SIDMap.Delete, hD, hk]
    · intro k' hne val
      simp only [srv6SIDMap.Delete, srv6SIDMap.Lookup, hD, EbpfMap.Lookup, EbpfMap.find,
        find_filter_ne _ _ _ hne]
    · intro h; exact absurd hk h
  · have hD := Delete_absent m.Map k hk
    refine ⟨?_, ?_, ?_, ?_⟩
    · simp [srv6SIDMap.Delete, hD, hk]
    · simp [srv6SIDMap.Delete, hD, hk]
    · intro k' _ val
      simp only [srv6SIDMap.Delete, srv6SIDMap.Lookup, hD]
    · intro _
      simp only [srv6SIDMap.Delete, hD]

/-! ## The table invariant is kept -/

theorem Update_keeps_WF (t : EbpfMap) (k : SIDKey) (v : SIDValue) (hwf : t.WF) :
    (t.Update k v 0).2.WF := by
  by_cases hk : k ∈ t.keys
  · rw [Update_any_present t k v hk]
    refine ⟨?_, ?_⟩
    · simp only [EbpfMap.keys, keys_replace]
      exact hwf.1
    · simp only [List.length_map]
      exact hwf.2
  · rw [Update_any_absent t k v hk]
    by_cases hc : t.entries.length ≥ t.spec.MaxEntries
    · simp only [hc, if_true]
      exact hwf
    · simp only [hc, if_false]
      refine ⟨?_, ?_⟩
      · simp only [EbpfMap.keys, List.map_append, List.map_cons, List.map_nil]
        exact List.Nodup.append hwf.1 (List.nodup_singleton k)
          (List.disjoint_singleton.2 hk)
      · simp only [List.length_append, List.length_singleton]
        omega

theorem Delete_keeps_WF (t : EbpfMap) (k : SIDKey) (hwf : t.WF) : (t.Delete k).2.WF := by
  by_cases hk : k ∈ t.keys
  · rw [Delete_present t k hk]
    refine ⟨?_, ?_⟩
    · exact List.Nodup.sublist (List.Sublist.map _ (List.filter_sublist _)) hwf.1
    · exact Nat.le_trans (List.length_filter_le _ _) hwf.2
  · rw [Delete_absent t k hk]
    exact hwf

theorem emptySIDMap_WF : emptySIDMap.Map.WF := by decide

end Srv6map
